import Mathlib

/-!
Verification development for the mood-food recommendation pipeline.

The definitions below are a shallow embedding of the repository source:
  - utils/user_profile.py   (UserProfileManager)
  - utils/mood_analyzer.py  (MoodAnalyzer)
  - utils/filters.py        (filter functions and the diversity filter)
  - model/embedder.py       (EnhancedEmbedder)
  - app.py                  (the module-level recommendation block)

Real numbers of the source (float scores) are modeled as rationals, which is
exact for every constant appearing in the source.  External collaborators
(the sentence-embedding model, the TextBlob polarity estimator, the sklearn
cosine function) are abstracted as function parameters, as the specification
directs; everything else is transcribed from the Python text.
-/

/-- Association-list lookup modelling a Python dict read: the first pair whose
key equals the query wins. -/
def alookup {β : Type} : List (String × β) → String → Option β
  | [], _ => none
  | p :: ps, k => if p.1 = k then some p.2 else alookup ps k

/-- Association-list write modelling a Python dict assignment: overwrite the
entry in place when the key is present, append a fresh entry otherwise. -/
def asetOrAppend {β : Type} (d : List (String × β)) (k : String) (v : β) :
    List (String × β) :=
  if (alookup d k).isSome then d.map (fun p => if p.1 = k then (k, v) else p)
  else d ++ [(k, v)]

/-- Boolean list-prefix test over characters. -/
def isPrefixB : List Char → List Char → Bool
  | [], _ => true
  | _ :: _, [] => false
  | a :: as, b :: bs => a = b && isPrefixB as bs

/-- Boolean substring test over characters, modelling the Python operator
(keyword in text). -/
def isSubstring (pat : List Char) : List Char → Bool
  | [] => isPrefixB pat []
  | c :: ts => isPrefixB pat (c :: ts) || isSubstring pat ts

/-- Index of the first occurrence of a pattern, modelling str.find (the none
case corresponds to the -1 return). -/
def find_sub (pat : List Char) : List Char → Option Nat
  | [] => if isPrefixB pat [] then some 0 else none
  | c :: ts =>
    if isPrefixB pat (c :: ts) then some 0 else (find_sub pat ts).map (· + 1)

/-- Whitespace test for the four blanks Python str.strip removes by default. -/
def isSpaceB (c : Char) : Bool :=
  c = ' ' || c = '\t' || c = '\n' || c = '\r'

/-- Model of Python str.strip on a character list. -/
def pyStrip (s : List Char) : List Char :=
  ((s.dropWhile isSpaceB).reverse.dropWhile isSpaceB).reverse

/-- First-occurrence deduplication, modelling the seen-set loop of
extract_mood_tags. -/
def dedupFirst (l : List String) : List String :=
  l.foldl (fun acc t => if t ∈ acc then acc else acc ++ [t]) []

/-- Stable descending insertion for sorting by a rational key. -/
def insertDesc {α : Type} (key : α → ℚ) (x : α) : List α → List α
  | [] => [x]
  | y :: ys => if key y < key x then x :: y :: ys else y :: insertDesc key x ys

/-- Stable descending sort by a rational key, modelling
sort_values(ascending=False) where ties keep catalog order. -/
def sortDescBy {α : Type} (key : α → ℚ) : List α → List α
  | [] => []
  | x :: xs => insertDesc key x (sortDescBy key xs)

/-- A catalog row: title, description, cuisine, diet, meal_time, cook_time. -/
structure Recipe where
  title : String
  description : String
  cuisine : String
  diet : String
  meal_time : String
  cook_time : ℚ
deriving DecidableEq

/-- One feedback record, as built in UserProfileManager.add_feedback.
Timestamps are abstract integer seconds (datetime.now is passed in
explicitly by the caller of the model). -/
structure Feedback where
  recipe_title : String
  rating : ℤ
  mood_tags : List String
  timestamp : ℤ
  cuisine : String
  meal_time : String
  cook_time : ℚ
deriving DecidableEq

/-- The session-state user_preferences record of user_profile.py. -/
structure UserPreferences where
  liked_recipes : List String
  disliked_recipes : List String
  cuisine_preferences : List (String × ℚ)
  mood_patterns : List (String × List String)
  feedback_history : List Feedback
  creation_date : ℤ
  last_updated : ℤ
deriving DecidableEq

/-- The default profile created by UserProfileManager, with the three preset
cuisine keys at affinity zero. -/
def default_preferences (now : ℤ) : UserPreferences :=
  { liked_recipes := []
    disliked_recipes := []
    cuisine_preferences := [("Desi", 0), ("Arabic", 0), ("Western", 0)]
    mood_patterns := []
    feedback_history := []
    creation_date := now
    last_updated := now }

/-- LEARNING_RATES max_history from config.py. -/
def max_history : Nat := 50

/-- LEARNING_RATES cuisine_boost from config.py. -/
def cuisine_boost_rate : ℚ := 1 / 10

/-- The mood-pattern update of add_feedback for a single tag: create the list
for an unseen tag, then append the title if not already present. -/
def add_mood_pattern (mp : List (String × List String)) (tag title : String) :
    List (String × List String) :=
  match alookup mp tag with
  | none => mp ++ [(tag, [title])]
  | some l => if title ∈ l then mp else asetOrAppend mp tag (l ++ [title])

/-- UserProfileManager.add_feedback: append the record to history (FIFO cap),
then mutate liked/disliked sets, cuisine affinities and mood patterns
according to the rating band, then refresh last_updated. -/
def add_feedback (now : ℤ) (recipe_title : String) (rating : ℤ)
    (mood_tags : List String) (recipe_cuisine recipe_meal_time : String)
    (recipe_cook_time : ℚ) (prefs : UserPreferences) : UserPreferences :=
  let feedback : Feedback :=
    { recipe_title := recipe_title
      rating := rating
      mood_tags := mood_tags
      timestamp := now
      cuisine := recipe_cuisine
      meal_time := recipe_meal_time
      cook_time := recipe_cook_time }
  let history := prefs.feedback_history ++ [feedback]
  let history :=
    if max_history < history.length then history.drop (history.length - max_history)
    else history
  let prefs := { prefs with feedback_history := history }
  let prefs :=
    if 4 ≤ rating then
      let liked :=
        if recipe_title ∈ prefs.liked_recipes then prefs.liked_recipes
        else prefs.liked_recipes ++ [recipe_title]
      let disliked :=
        if recipe_title ∈ prefs.disliked_recipes then prefs.disliked_recipes.erase recipe_title
        else prefs.disliked_recipes
      let cp :=
        match alookup prefs.cuisine_preferences recipe_cuisine with
        | some current =>
          asetOrAppend prefs.cuisine_preferences recipe_cuisine
            (min 1 (current + cuisine_boost_rate))
        | none => prefs.cuisine_preferences
      let mp := mood_tags.foldl (fun m tag => add_mood_pattern m tag recipe_title)
        prefs.mood_patterns
      { prefs with liked_recipes := liked, disliked_recipes := disliked,
                   cuisine_preferences := cp, mood_patterns := mp }
    else if rating ≤ 2 then
      let disliked :=
        if recipe_title ∈ prefs.disliked_recipes then prefs.disliked_recipes
        else prefs.disliked_recipes ++ [recipe_title]
      let liked :=
        if recipe_title ∈ prefs.liked_recipes then prefs.liked_recipes.erase recipe_title
        else prefs.liked_recipes
      let cp :=
        match alookup prefs.cuisine_preferences recipe_cuisine with
        | some current =>
          asetOrAppend prefs.cuisine_preferences recipe_cuisine
            (max (-(1 / 2)) (current - cuisine_boost_rate * (1 / 2)))
        | none => prefs.cuisine_preferences
      { prefs with liked_recipes := liked, disliked_recipes := disliked,
                   cuisine_preferences := cp }
    else prefs
  { prefs with last_updated := now }

/-- The arguments of one add_feedback invocation. -/
structure FeedbackCall where
  recipe_title : String
  rating : ℤ
  mood_tags : List String
  cuisine : String
  meal_time : String
  cook_time : ℚ
deriving DecidableEq

/-- Apply one feedback call to a profile. -/
def applyCall (now : ℤ) (p : UserPreferences) (c : FeedbackCall) : UserPreferences :=
  add_feedback now c.recipe_title c.rating c.mood_tags c.cuisine c.meal_time c.cook_time p

/-- Run a sequence of feedback calls starting from the default profile. -/
def runFeedback (now : ℤ) (calls : List FeedbackCall) : UserPreferences :=
  calls.foldl (applyCall now) (default_preferences now)

/-- UserProfileManager._get_recent_feedback: entries newer than now minus the
given number of days (a day being 86400 model seconds).  Timestamps in the
model are always well-formed, so the try/except of the source never skips. -/
def get_recent_feedback (now : ℤ) (days : ℤ) (prefs : UserPreferences) : List Feedback :=
  let cutoff := now - days * 86400
  prefs.feedback_history.filter (fun f => decide (cutoff < f.timestamp))

/-- UserProfileManager.get_personalized_boost: cuisine-affinity term, liked
bonus, disliked penalty, recent matching-likes bonus, clamped to the unit
band.  The source guard on an empty recent list is a no-op because an empty
list contributes zero. -/
def get_personalized_boost (now : ℤ) (prefs : UserPreferences) (recipe_row : Recipe) : ℚ :=
  let boost : ℚ := 0
  let cuisine := recipe_row.cuisine
  let boost :=
    match alookup prefs.cuisine_preferences cuisine with
    | some v => boost + v * (3 / 10)
    | none => boost
  let boost := if recipe_row.title ∈ prefs.liked_recipes then boost + 1 / 2 else boost
  let boost := if recipe_row.title ∈ prefs.disliked_recipes then boost - 1 else boost
  let recent_feedback := get_recent_feedback now 30 prefs
  let recent_likes := recent_feedback.filter (fun f => decide (4 ≤ f.rating))
  let matching := recent_likes.filter
    (fun f => decide (f.cuisine = cuisine ∧ f.meal_time = recipe_row.meal_time))
  let boost := boost + (matching.length : ℚ) * (1 / 10)
  max (-1) (min 1 boost)

/-- The nine emotion categories of MoodAnalyzer and their keyword lists, in
table-definition order. -/
def emotion_keywords : List (String × List String) :=
  [("stress", ["stressed", "overwhelmed", "anxious", "tense", "pressure", "frazzled", "hectic"]),
   ("comfort", ["sad", "lonely", "homesick", "tired", "exhausted", "down", "blue", "melancholy"]),
   ("energy", ["energetic", "excited", "happy", "motivated", "pumped", "enthusiastic", "vibrant"]),
   ("calm", ["peaceful", "relaxed", "zen", "meditative", "serene", "tranquil", "chill"]),
   ("social", ["celebratory", "party", "friends", "family", "gathering", "festive"]),
   ("indulgent", ["craving", "treat", "indulgent", "guilty pleasure", "comfort food"]),
   ("healthy", ["fresh", "light", "clean", "detox", "healthy", "nutritious"]),
   ("quick", ["rushed", "hurry", "quick", "fast", "busy", "no time"]),
   ("cozy", ["cozy", "warm", "comforting", "snuggled", "homey", "intimate"])]

/-- The intensity-modifier table of MoodAnalyzer: modifier phrase to
multiplier. -/
def intensity_words : List (String × ℚ) :=
  [("very", 3 / 2), ("extremely", 2), ("super", 17 / 10), ("really", 13 / 10),
   ("quite", 6 / 5), ("pretty", 11 / 10), ("somewhat", 4 / 5), ("slightly", 7 / 10),
   ("a bit", 4 / 5), ("a little", 7 / 10), ("totally", 9 / 5), ("completely", 2)]

/-- MoodAnalyzer._get_keyword_intensity over an arbitrary modifier table:
locate the keyword, take the 20 characters before its first occurrence, and
fold a running maximum (seeded at one) of every matching modifier. -/
def keyword_intensity_over (table : List (String × ℚ)) (text keyword : List Char) : ℚ :=
  match find_sub keyword text with
  | none => 1
  | some pos =>
    let before := (text.take pos).drop (pos - 20)
    table.foldl
      (fun acc mw => if isSubstring mw.1.toList before then max acc mw.2 else acc) 1

/-- MoodAnalyzer._get_keyword_intensity with the intensity table of the
source. -/
def get_keyword_intensity (text keyword : List Char) : ℚ :=
  keyword_intensity_over intensity_words text keyword

/-- The category labels detected in a mood text: a category is kept exactly
when at least one of its keywords occurs as a substring of the lowered
text. -/
def category_tags (mood_text : String) : List String :=
  let lower := mood_text.toList.map Char.toLower
  (emotion_keywords.filter
    (fun ck => ck.2.any (fun kw => isSubstring kw.toList lower))).map Prod.fst

/-- The sentiment-derived tag list of the if/elif chain in
extract_mood_tags: at most one element. -/
def sentiment_tag_list (sentiment : ℚ) : List String :=
  if sentiment < -(2 / 5) then ["negative"]
  else if 2 / 5 < sentiment then ["positive"]
  else if -(1 / 5) ≤ sentiment ∧ sentiment ≤ 1 / 5 then ["neutral"]
  else []

/-- MoodAnalyzer.extract_mood_tags.  The sentiment score comes from the
external TextBlob polarity estimator, so it is an input of the model.  The
source also computes per-category average intensities (tag_scores) that do
not influence the returned value; detection is by keyword presence alone. -/
def extract_mood_tags (sentiment : ℚ) (mood_text : String) : List String × ℚ :=
  if mood_text = "" then ([], 0)
  else
    let lower := mood_text.toList.map Char.toLower
    let detected_tags :=
      (emotion_keywords.filter
        (fun ck => ck.2.any (fun kw => isSubstring kw.toList lower))).map Prod.fst
    let detected_tags :=
      if sentiment < -(2 / 5) then detected_tags ++ ["negative"]
      else if 2 / 5 < sentiment then detected_tags ++ ["positive"]
      else if -(1 / 5) ≤ sentiment ∧ sentiment ≤ 1 / 5 then detected_tags ++ ["neutral"]
      else detected_tags
    let unique_tags := dedupFirst detected_tags
    (unique_tags.take 5, sentiment)

/-- The cuisine feature table of EnhancedEmbedder. -/
def cuisine_weights : List (String × List ℚ) :=
  [("Desi", [4 / 5, 3 / 5, 9 / 10]),
   ("Arabic", [7 / 10, 1 / 2, 4 / 5]),
   ("Western", [1 / 2, 3 / 10, 3 / 5])]

/-- The time-of-day feature table of EnhancedEmbedder. -/
def time_weights : List (String × List ℚ) :=
  [("Breakfast", [3 / 5, 4 / 5, 2 / 5]),
   ("Lunch", [7 / 10, 3 / 5, 4 / 5]),
   ("Dinner", [9 / 10, 2 / 5, 7 / 10])]

/-- EnhancedEmbedder.get_enhanced_embedding, parametrized by the external
text-embedding function: weighted text part, weighted cuisine and time
lookups with the neutral default, and the normalized cook-time component. -/
def get_enhanced_embedding (embed : String → List ℚ)
    (description cuisine meal_time : String) (cook_time : ℚ) : List ℚ :=
  let text_emb := embed description
  let cuisine_emb := (alookup cuisine_weights cuisine).getD [1 / 2, 1 / 2, 1 / 2]
  let time_emb := (alookup time_weights meal_time).getD [1 / 2, 1 / 2, 1 / 2]
  let time_factor := min (cook_time / 60) 1
  text_emb.map (fun x => x * (7 / 10))
    ++ cuisine_emb.map (fun x => x * (2 / 10))
    ++ time_emb.map (fun x => x * (1 / 10))
    ++ [time_factor * (1 / 10)]

/-- Scalar-times-vector, written from the specification words. -/
def scale (w : ℚ) (v : List ℚ) : List ℚ := v.map (fun x => w * x)

/-- The cuisineVector lookup of the specification, with the neutral default
for unknown keys. -/
def cuisineVector (cuisine : String) : List ℚ :=
  (alookup cuisine_weights cuisine).getD [1 / 2, 1 / 2, 1 / 2]

/-- The timeVector lookup of the specification, with the neutral default for
unknown keys. -/
def timeVector (meal_time : String) : List ℚ :=
  (alookup time_weights meal_time).getD [1 / 2, 1 / 2, 1 / 2]

/-- The enhancedEmbed composition written from the specification words:
0.7 times the text embedding, then 0.2 times the cuisine vector, then
0.1 times the time vector, then the single component 0.1 times
min(cookTime/60, 1). -/
def enhancedEmbed_spec (embed : String → List ℚ)
    (description cuisine meal_time : String) (cook_time : ℚ) : List ℚ :=
  scale (7 / 10) (embed description)
    ++ scale (2 / 10) (cuisineVector cuisine)
    ++ scale (1 / 10) (timeVector meal_time)
    ++ [(1 / 10) * min (cook_time / 60) 1]

/-- filters.filter_recipes: diet (unless Any), meal_time and cook_time
filters, with case-insensitive string comparison. -/
def filter_recipes (df : List Recipe) (diet meal_time : String) (cook_time : ℚ) :
    List Recipe :=
  let filtered := df
  let filtered :=
    if diet ≠ "Any" then filtered.filter (fun r => decide (r.diet.toLower = diet.toLower))
    else filtered
  let filtered := filtered.filter (fun r => decide (r.meal_time.toLower = meal_time.toLower))
  filtered.filter (fun r => decide (r.cook_time ≤ cook_time))

/-- A filtered frame: the rows together with a flag recording whether the
cuisine_boost column exists on the frame, and the per-row value of that
column (zero when the column is absent). -/
structure PrefFrame where
  rows : List (Recipe × ℚ)
  hasCuisineBoostCol : Bool
deriving DecidableEq

/-- filters.filter_with_preferences: basic filters, then with a profile drop
the disliked titles (when the disliked list is non-empty) and add the
cuisine_boost column as the cuisine-preference lookup with fill value
zero. -/
def filter_with_preferences (df : List Recipe) (diet meal_time : String)
    (cook_time : ℚ) (user_preferences : Option UserPreferences) : PrefFrame :=
  let filtered := filter_recipes df diet meal_time cook_time
  match user_preferences with
  | none => { rows := filtered.map (fun r => (r, 0)), hasCuisineBoostCol := false }
  | some prefs =>
    let filtered :=
      if prefs.disliked_recipes ≠ [] then
        filtered.filter (fun r => decide (r.title ∉ prefs.disliked_recipes))
      else filtered
    let boost := fun (r : Recipe) =>
      if prefs.cuisine_preferences ≠ [] then
        (alookup prefs.cuisine_preferences r.cuisine).getD 0
      else 0
    { rows := filtered.map (fun r => (r, boost r)), hasCuisineBoostCol := true }

/-- The loop of filters.apply_diversity_filter: walk the ranked rows, admit a
row while its cuisine count is below the cap, and stop once three rows are
admitted. -/
def diversity_loop {α : Type} (cuisineOf : α → String) (max_same : Nat) :
    List α → List (String × Nat) → List α → List α
  | [], _counts, acc => acc
  | r :: rs, counts, acc =>
    let c := (alookup counts (cuisineOf r)).getD 0
    let acc2 := if c < max_same then acc ++ [r] else acc
    let counts2 :=
      if c < max_same then asetOrAppend counts (cuisineOf r) (c + 1) else counts
    if 3 ≤ acc2.length then acc2
    else diversity_loop cuisineOf max_same rs counts2 acc2

/-- filters.apply_diversity_filter: an input no longer than the per-cuisine
cap is returned unchanged, otherwise the greedy walk runs. -/
def apply_diversity_filter {α : Type} (cuisineOf : α → String)
    (recommendations : List α) (max_same_cuisine : Nat) : List α :=
  if recommendations.length ≤ max_same_cuisine then recommendations
  else diversity_loop cuisineOf max_same_cuisine recommendations [] []

/-- Number of rows of a given cuisine in a list. -/
def countCuisine {α : Type} (cuisineOf : α → String) (l : List α) (c : String) : Nat :=
  (l.filter (fun r => decide (cuisineOf r = c))).length

/-- A row of the scored frame in app.py: the recipe, its similarity, and the
value a cuisine_boost column would carry.  Whether that column actually
exists on the frame is tracked separately, because it is a frame-level
property in the source. -/
structure ScoredRow where
  recipe : Recipe
  similarity : ℚ
  cuisine_boost : ℚ
deriving DecidableEq

/-- The final_score column of app.py: similarity plus cuisine_boost. -/
def final_score_col (r : ScoredRow) : ℚ := r.similarity + r.cuisine_boost

/-- Lines 148 to 158 of app.py: choose the sort column (final_score only when
learning is enabled and the cuisine_boost column exists on the frame), sort
descending, take the head of six, and apply the diversity filter with the
per-cuisine cap of two. -/
def rank_and_select (enable_learning has_cuisine_boost_col : Bool)
    (rows : List ScoredRow) : List ScoredRow :=
  let sorted :=
    if enable_learning && has_cuisine_boost_col then sortDescBy final_score_col rows
    else sortDescBy ScoredRow.similarity rows
  apply_diversity_filter (fun r => r.recipe.cuisine) (sorted.take 6) 2

/-- The final score the claim and the specification prescribe under learning:
similarity plus the stored raw cuisine_preferences value of the cuisine of
the row (zero for an unseen cuisine).  Written from the specification
words. -/
def spec_final_score (prefs : UserPreferences) (r : ScoredRow) : ℚ :=
  r.similarity + (alookup prefs.cuisine_preferences r.recipe.cuisine).getD 0

/-- The observable outcomes of one run of the recommendation block. -/
inductive RecOutcome where
  | noMood
  | noResults
  | results (rows : List ScoredRow)
deriving DecidableEq

/-- The module-level recommendation block of app.py (lines 117 to 160),
parametrized by the external text embedding and the external cosine
function.  Fallible steps are modelled in Except:
  - in enhanced mode the source reads recipe_embeddings[0] to learn the
    enhanced length, which raises IndexError on an empty candidate list;
  - sklearn cosine_similarity raises ValueError when handed zero samples.
After the frame gains its similarity column, the source sets
final_filtered to filtered_df (the preference filter is skipped by the
debugging line), so the frame reaching the ranking step never has a
cuisine_boost column; the ranking is therefore invoked with the column
flag false and a zero column value. -/
def recommend_block (embed : String → List ℚ) (sim : List ℚ → List ℚ → ℚ)
    (use_enhanced enable_learning : Bool) (mood : String)
    (filtered_df : List Recipe) : Except String RecOutcome :=
  if pyStrip mood.toList = [] then Except.ok RecOutcome.noMood
  else
    let step : Except String (List ℚ × List (List ℚ)) :=
      if use_enhanced then
        let recipe_embeddings := filtered_df.map (fun r =>
          get_enhanced_embedding embed r.description r.cuisine r.meal_time r.cook_time)
        match recipe_embeddings with
        | [] => Except.error "IndexError: list index out of range"
        | e0 :: rest =>
          let mood_embedding := embed mood
          let padded := mood_embedding ++ List.replicate (e0.length - mood_embedding.length) 0
          Except.ok (padded, e0 :: rest)
      else
        Except.ok (embed mood, filtered_df.map (fun r => embed r.description))
    match step with
    | Except.error e => Except.error e
    | Except.ok (mood_embedding, recipe_embeddings) =>
      if recipe_embeddings.isEmpty then
        Except.error "ValueError: found array with 0 samples"
      else
        let sims := recipe_embeddings.map (sim mood_embedding)
        let rows := (filtered_df.zip sims).map (fun p => ScoredRow.mk p.1 p.2 0)
        let top := rank_and_select enable_learning false rows
        if top.isEmpty then Except.ok RecOutcome.noResults
        else Except.ok (RecOutcome.results top)

/-- A profile with a positive stored Desi affinity, used to exhibit the dead
learning branch of the ranking. -/
def prefs_c1 : UserPreferences :=
  { liked_recipes := []
    disliked_recipes := []
    cuisine_preferences := [("Desi", 1 / 2), ("Arabic", 0), ("Western", 0)]
    mood_patterns := []
    feedback_history := []
    creation_date := 0
    last_updated := 0 }

/-- A Desi dinner recipe fixture. -/
def recipeA : Recipe :=
  { title := "Chicken Karahi", description := "spiced comfort curry",
    cuisine := "Desi", diet := "Halal", meal_time := "Dinner", cook_time := 30 }

/-- A Western dinner recipe fixture. -/
def recipeB : Recipe :=
  { title := "Pasta", description := "creamy pasta",
    cuisine := "Western", diet := "Any", meal_time := "Dinner", cook_time := 25 }

/-- recipeA scored with similarity one half. -/
def rowA : ScoredRow := { recipe := recipeA, similarity := 1 / 2, cuisine_boost := 0 }

/-- recipeB scored with similarity three fifths. -/
def rowB : ScoredRow := { recipe := recipeB, similarity := 3 / 5, cuisine_boost := 0 }

/-- A profile whose stored Desi affinity is far outside the unit band,
modelling an unbounded initial load. -/
def prefs_unbounded : UserPreferences :=
  { liked_recipes := []
    disliked_recipes := []
    cuisine_preferences := [("Desi", 5), ("Arabic", 0), ("Western", 0)]
    mood_patterns := []
    feedback_history := []
    creation_date := 0
    last_updated := 0 }

/-- The feedback call of the personalization scenario. -/
def karahi_call : FeedbackCall :=
  { recipe_title := "Chicken Karahi", rating := 5, mood_tags := ["comfort"],
    cuisine := "Desi", meal_time := "Dinner", cook_time := 30 }

/-- A negative feedback call on a Desi recipe. -/
def negative_desi_call : FeedbackCall :=
  { recipe_title := "Chicken Karahi", rating := 1, mood_tags := [],
    cuisine := "Desi", meal_time := "Dinner", cook_time := 30 }

/-- A positive feedback call whose recipe cuisine is not a preset key. -/
def unknown_cuisine_call : FeedbackCall :=
  { recipe_title := "Sushi", rating := 5, mood_tags := ["energy"],
    cuisine := "Unknown", meal_time := "Lunch", cook_time := 20 }

/-- The liked/disliked shape every profile reachable from the default keeps:
both lists duplicate-free and disjoint. -/
def GoodSets (p : UserPreferences) : Prop :=
  p.liked_recipes.Nodup ∧ p.disliked_recipes.Nodup ∧
    ∀ t, t ∈ p.liked_recipes → t ∉ p.disliked_recipes

/-- Every stored cuisine affinity lies in the unit band. -/
def BoundedPrefs (p : UserPreferences) : Prop :=
  ∀ kv ∈ p.cuisine_preferences, -1 ≤ kv.2 ∧ kv.2 ≤ 1

theorem foldl_max_one_le (before : List Char) (table : List (String × ℚ)) (a : ℚ)
    (h : 1 ≤ a) :
    1 ≤ table.foldl
      (fun acc mw => if isSubstring mw.1.toList before then max acc mw.2 else acc) a := by
  induction table generalizing a with
  | nil => simpa using h
  | cons mw t ih =>
    simp only [List.foldl_cons]
    apply ih
    split
    · exact le_trans h (le_max_left _ _)
    · exact h

theorem foldl_max_filter_sub_unit (before : List Char) (table : List (String × ℚ))
    (a : ℚ) (h : 1 ≤ a) :
    table.foldl
        (fun acc mw => if isSubstring mw.1.toList before then max acc mw.2 else acc) a
      = (table.filter (fun mw => decide (1 ≤ mw.2))).foldl
          (fun acc mw => if isSubstring mw.1.toList before then max acc mw.2 else acc) a := by
  induction table generalizing a with
  | nil => rfl
  | cons mw t ih =>
    by_cases hm : 1 ≤ mw.2
    · have h1 : (1 : ℚ) ≤ if isSubstring mw.1.toList before then max a mw.2 else a := by
        split
        · exact le_trans h (le_max_left _ _)
        · exact h
      rw [List.filter_cons, decide_eq_true hm, if_pos rfl, List.foldl_cons, List.foldl_cons]
      exact ih _ h1
    · have hle : mw.2 ≤ a := le_trans (le_of_not_le hm) h
      have hstay : (if isSubstring mw.1.toList before then max a mw.2 else a) = a := by
        split
        · exact max_eq_left hle
        · rfl
      rw [List.filter_cons, decide_eq_false hm, List.foldl_cons, hstay]
      exact ih a h

/-- Claim C10: for every text and keyword, the per-keyword intensity returned
by the intensity lookup is at least one, because the result is a running
maximum seeded at one over the matched modifiers; consequently the lookup
computes the same value over the table with every sub-unit modifier
(somewhat, slightly, a bit, a little) removed, so those entries have no
effect. -/
theorem keyword_intensity_at_least_one (text keyword : List Char) :
    1 ≤ get_keyword_intensity text keyword
  ∧ get_keyword_intensity text keyword
      = keyword_intensity_over (intensity_words.filter (fun mw => decide (1 ≤ mw.2)))
          text keyword := by
  unfold get_keyword_intensity keyword_intensity_over
  cases hf : find_sub keyword text with
  | none => simp
  | some pos =>
    simp only []
    constructor
    · exact foldl_max_one_le _ _ 1 le_rfl
    · exact foldl_max_filter_sub_unit _ _ 1 le_rfl

/-- Claim C5: for every non-empty mood text, extract_mood_tags builds its tag
list (before first-occurrence deduplication and the cap of five) as the
category tags followed by at most one sentiment tag, and that tag is
negative exactly below minus two fifths, positive exactly above two fifths,
neutral exactly inside the closed band of one fifth, and absent exactly on
the two remaining gaps. -/
theorem extract_mood_tags_sentiment_bands (s : ℚ) (txt : String) (h : txt ≠ "") :
    (extract_mood_tags s txt).1
        = (dedupFirst (category_tags txt ++ sentiment_tag_list s)).take 5
  ∧ (sentiment_tag_list s).length ≤ 1
  ∧ (sentiment_tag_list s = ["negative"] ↔ s < -(2 / 5))
  ∧ (sentiment_tag_list s = ["positive"] ↔ 2 / 5 < s)
  ∧ (sentiment_tag_list s = ["neutral"] ↔ -(1 / 5) ≤ s ∧ s ≤ 1 / 5)
  ∧ (sentiment_tag_list s = []
      ↔ ((1 / 5 < s ∧ s ≤ 2 / 5) ∨ (-(2 / 5) ≤ s ∧ s < -(1 / 5)))) := by
  refine ⟨?_, ?_, ?_, ?_, ?_, ?_⟩
  · simp only [extract_mood_tags, category_tags, sentiment_tag_list, if_neg h]
    split_ifs <;> simp
  · unfold sentiment_tag_list
    split_ifs <;> simp
  · unfold sentiment_tag_list
    split_ifs with h1 h2 h3
    · exact iff_of_true rfl h1
    · exact iff_of_false (by decide) (fun hc => absurd hc (by linarith))
    · exact iff_of_false (by decide) (fun hc => absurd hc (by linarith [h3.1]))
    · exact iff_of_false (by decide) h1
  · unfold sentiment_tag_list
    split_ifs with h1 h2 h3
    · exact iff_of_false (by decide) (fun hc => absurd hc (by linarith))
    · exact iff_of_true rfl h2
    · exact iff_of_false (by decide) (fun hc => absurd hc (by linarith [h3.2]))
    · exact iff_of_false (by decide) h2
  · unfold sentiment_tag_list
    split_ifs with h1 h2 h3
    · exact iff_of_false (by decide) (fun hc => absurd hc.1 (by linarith))
    · exact iff_of_false (by decide) (fun hc => absurd hc.2 (by linarith))
    · exact iff_of_true rfl h3
    · exact iff_of_false (by decide) h3
  · unfold sentiment_tag_list
    split_ifs with h1 h2 h3
    · refine iff_of_false (by decide) ?_
      rintro (⟨ha, hb⟩ | ⟨ha, hb⟩) <;> linarith
    · refine iff_of_false (by decide) ?_
      rintro (⟨ha, hb⟩ | ⟨ha, hb⟩) <;> linarith
    · refine iff_of_false (by decide) ?_
      rintro (⟨ha, hb⟩ | ⟨ha, hb⟩)
      · exact absurd ha (not_lt.2 h3.2)
      · exact absurd hb (not_lt.2 h3.1)
    · refine iff_of_true rfl ?_
      rcases not_and_or.1 h3 with hc | hc
      · exact Or.inr ⟨not_lt.1 h1, not_le.1 hc⟩
      · exact Or.inl ⟨not_le.1 hc, not_lt.1 h2⟩

/-- Concrete instantiation of the C5 theorem at sentiment zero and a
non-empty text. -/
theorem extract_mood_tags_sentiment_bands_witness :
    (extract_mood_tags 0 "hungry").1
      = (dedupFirst (category_tags "hungry" ++ sentiment_tag_list 0)).take 5 :=
  (extract_mood_tags_sentiment_bands 0 "hungry" (by decide)).1

theorem add_feedback_liked_eq (now : ℤ) (t : String) (rating : ℤ) (tags : List String)
    (cu mt : String) (ct : ℚ) (p : UserPreferences) :
    (add_feedback now t rating tags cu mt ct p).liked_recipes =
      if 4 ≤ rating then
        (if t ∈ p.liked_recipes then p.liked_recipes else p.liked_recipes ++ [t])
      else if rating ≤ 2 then
        (if t ∈ p.liked_recipes then p.liked_recipes.erase t else p.liked_recipes)
      else p.liked_recipes := by
  simp only [add_feedback]
  split_ifs <;> rfl

theorem add_feedback_disliked_eq (now : ℤ) (t : String) (rating : ℤ) (tags : List String)
    (cu mt : String) (ct : ℚ) (p : UserPreferences) :
    (add_feedback now t rating tags cu mt ct p).disliked_recipes =
      if 4 ≤ rating then
        (if t ∈ p.disliked_recipes then p.disliked_recipes.erase t else p.disliked_recipes)
      else if rating ≤ 2 then
        (if t ∈ p.disliked_recipes then p.disliked_recipes else p.disliked_recipes ++ [t])
      else p.disliked_recipes := by
  simp only [add_feedback]
  split_ifs <;> rfl

theorem add_feedback_cp_eq (now : ℤ) (t : String) (rating : ℤ) (tags : List String)
    (cu mt : String) (ct : ℚ) (p : UserPreferences) :
    (add_feedback now t rating tags cu mt ct p).cuisine_preferences =
      if 4 ≤ rating then
        (match alookup p.cuisine_preferences cu with
         | some current =>
           asetOrAppend p.cuisine_preferences cu (min 1 (current + cuisine_boost_rate))
         | none => p.cuisine_preferences)
      else if rating ≤ 2 then
        (match alookup p.cuisine_preferences cu with
         | some current =>
           asetOrAppend p.cuisine_preferences cu
             (max (-(1 / 2)) (current - cuisine_boost_rate * (1 / 2)))
         | none => p.cuisine_preferences)
      else p.cuisine_preferences := by
  simp only [add_feedback]
  split_ifs <;> rfl

theorem goodSets_default (now : ℤ) : GoodSets (default_preferences now) := by
  refine ⟨List.nodup_nil, List.nodup_nil, ?_⟩
  intro t ht
  simp [default_preferences] at ht

theorem nodup_append_singleton {t : String} {l : List String} (hl : l.Nodup)
    (ht : t ∉ l) : (l ++ [t]).Nodup := by
  simp [List.nodup_append, hl, ht]

theorem goodSets_step (now : ℤ) (p : UserPreferences) (c : FeedbackCall)
    (h : GoodSets p) : GoodSets (applyCall now p c) := by
  obtain ⟨hl, hd, hdisj⟩ := h
  have hle := add_feedback_liked_eq now c.recipe_title c.rating c.mood_tags c.cuisine
    c.meal_time c.cook_time p
  have hde := add_feedback_disliked_eq now c.recipe_title c.rating c.mood_tags c.cuisine
    c.meal_time c.cook_time p
  unfold applyCall GoodSets
  by_cases h4 : 4 ≤ c.rating
  · rw [if_pos h4] at hle hde
    by_cases hmem : c.recipe_title ∈ p.liked_recipes
    · have hnd : c.recipe_title ∉ p.disliked_recipes := hdisj _ hmem
      rw [if_pos hmem] at hle
      rw [if_neg hnd] at hde
      rw [hle, hde]
      exact ⟨hl, hd, hdisj⟩
    · rw [if_neg hmem] at hle
      rw [hle, hde]
      refine ⟨nodup_append_singleton hl hmem, ?_, ?_⟩
      · split
        · exact hd.erase _
        · exact hd
      · intro t ht
        rcases List.mem_append.1 ht with htl | hts
        · have htnd : t ∉ p.disliked_recipes := hdisj _ htl
          split
          · exact fun hc => htnd (List.mem_of_mem_erase hc)
          · exact htnd
        · have hteq : t = c.recipe_title := by simpa using hts
          subst hteq
          split
          · exact hd.not_mem_erase
          · assumption
  · by_cases h2 : c.rating ≤ 2
    · rw [if_neg h4, if_pos h2] at hle hde
      by_cases hmem : c.recipe_title ∈ p.disliked_recipes
      · have hnl : c.recipe_title ∉ p.liked_recipes := fun hc => hdisj _ hc hmem
        rw [if_pos hmem] at hde
        rw [if_neg hnl] at hle
        rw [hle, hde]
        exact ⟨hl, hd, hdisj⟩
      · rw [if_neg hmem] at hde
        rw [hle, hde]
        refine ⟨?_, nodup_append_singleton hd hmem, ?_⟩
        · split
          · exact hl.erase _
          · exact hl
        · intro t ht
          have htl : t ∈ p.liked_recipes ∧ t ≠ c.recipe_title := by
            revert ht
            split
            · intro ht
              have hne := (List.Nodup.mem_erase_iff hl).1 ht
              exact ⟨hne.2, hne.1⟩
            · intro ht
              rename_i hnotmem
              refine ⟨ht, ?_⟩
              intro hteq
              subst hteq
              exact hnotmem ht
          intro hcon
          rcases List.mem_append.1 hcon with hcl | hcs
          · exact hdisj _ htl.1 hcl
          · exact htl.2 (by simpa using hcs)
    · rw [if_neg h4, if_neg h2] at hle hde
      rw [hle, hde]
      exact ⟨hl, hd, hdisj⟩

theorem goodSets_foldl (now : ℤ) (calls : List FeedbackCall) (p : UserPreferences)
    (h : GoodSets p) : GoodSets (calls.foldl (applyCall now) p) := by
  induction calls generalizing p with
  | nil => exact h
  | cons c cs ih => exact ih _ (goodSets_step now p c h)

theorem goodSets_run (now : ℤ) (calls : List FeedbackCall) :
    GoodSets (runFeedback now calls) :=
  goodSets_foldl now calls _ (goodSets_default now)

/-- Claim C3: over every feedback sequence from the default profile, no title
is ever in both the liked and the disliked list; moreover recording a rating
of at least four removes the title from the disliked list and recording a
rating of at most two removes it from the liked list. -/
theorem feedback_mutual_exclusivity (now : ℤ) (calls : List FeedbackCall)
    (c : FeedbackCall) (t : String) :
    (¬ (t ∈ (runFeedback now calls).liked_recipes
        ∧ t ∈ (runFeedback now calls).disliked_recipes))
  ∧ (4 ≤ c.rating →
      c.recipe_title ∉ (applyCall now (runFeedback now calls) c).disliked_recipes)
  ∧ (c.rating ≤ 2 →
      c.recipe_title ∉ (applyCall now (runFeedback now calls) c).liked_recipes) := by
  obtain ⟨hl, hd, hdisj⟩ := goodSets_run now calls
  refine ⟨fun hc => hdisj _ hc.1 hc.2, ?_, ?_⟩
  · intro h4
    unfold applyCall
    rw [add_feedback_disliked_eq, if_pos h4]
    split
    · exact hd.not_mem_erase
    · assumption
  · intro h2
    have h4 : ¬ 4 ≤ c.rating := by omega
    unfold applyCall
    rw [add_feedback_liked_eq, if_neg h4, if_pos h2]
    split
    · exact hl.not_mem_erase
    · assumption

/-- Concrete instantiation of the C3 theorem: after liking Chicken Karahi, a
rating of one removes it from the liked list. -/
theorem feedback_mutual_exclusivity_witness :
    "Chicken Karahi"
      ∉ (applyCall 0 (runFeedback 0 [karahi_call]) negative_desi_call).liked_recipes := by
  have h := (feedback_mutual_exclusivity 0 [karahi_call] negative_desi_call "x").2.2
  exact h (by norm_num [negative_desi_call])

theorem mem_asetOrAppend {β : Type} {d : List (String × β)} {k : String} {v : β}
    {q : String × β} (h : q ∈ asetOrAppend d k v) : q = (k, v) ∨ q ∈ d := by
  unfold asetOrAppend at h
  split at h
  · rcases List.mem_map.1 h with ⟨r, hr, hrq⟩
    by_cases hk : r.1 = k
    · rw [if_pos hk] at hrq
      exact Or.inl hrq.symm
    · rw [if_neg hk] at hrq
      exact Or.inr (hrq ▸ hr)
  · rcases List.mem_append.1 h with hq | hq
    · exact Or.inr hq
    · exact Or.inl (by simpa using hq)

theorem alookup_mem {β : Type} {d : List (String × β)} {k : String} {v : β}
    (h : alookup d k = some v) : (k, v) ∈ d := by
  induction d with
  | nil => simp [alookup] at h
  | cons q ps ih =>
    by_cases hk : q.1 = k
    · rw [alookup, if_pos hk] at h
      have : q = (k, v) := by
        cases q
        cases h
        simpa using hk
      exact this ▸ List.mem_cons_self _ _
    · rw [alookup, if_neg hk] at h
      exact List.mem_cons_of_mem _ (ih h)

theorem boundedPrefs_step (now : ℤ) (p : UserPreferences) (c : FeedbackCall)
    (h : BoundedPrefs p) : BoundedPrefs (applyCall now p c) := by
  intro kv hkv
  unfold applyCall at hkv
  rw [add_feedback_cp_eq] at hkv
  by_cases h4 : 4 ≤ c.rating
  · rw [if_pos h4] at hkv
    cases halk : alookup p.cuisine_preferences c.cuisine with
    | none =>
      rw [halk] at hkv
      exact h kv hkv
    | some current =>
      rw [halk] at hkv
      have hcur := h _ (alookup_mem halk)
      rcases mem_asetOrAppend hkv with hq | hq
      · rw [hq]
        have hb1 : -1 ≤ min 1 (current + cuisine_boost_rate) := by
          apply le_min
          · norm_num
          · simp only [cuisine_boost_rate] at *
            linarith [hcur.1]
        have hb2 : min 1 (current + cuisine_boost_rate) ≤ 1 := min_le_left _ _
        exact ⟨hb1, hb2⟩
      · exact h kv hq
  · by_cases h2 : c.rating ≤ 2
    · rw [if_neg h4, if_pos h2] at hkv
      cases halk : alookup p.cuisine_preferences c.cuisine with
      | none =>
        rw [halk] at hkv
        exact h kv hkv
      | some current =>
        rw [halk] at hkv
        have hcur := h _ (alookup_mem halk)
        rcases mem_asetOrAppend hkv with hq | hq
        · rw [hq]
          have hb1 : -1 ≤ max (-(1 / 2)) (current - cuisine_boost_rate * (1 / 2)) :=
            le_trans (by norm_num) (le_max_left _ _)
          have hb2 : max (-(1 / 2)) (current - cuisine_boost_rate * (1 / 2)) ≤ 1 := by
            apply max_le
            · norm_num
            · simp only [cuisine_boost_rate] at *
              linarith [hcur.2]
          exact ⟨hb1, hb2⟩
        · exact h kv hq
    · rw [if_neg h4, if_neg h2] at hkv
      exact h kv hkv

theorem boundedPrefs_foldl (now : ℤ) (calls : List FeedbackCall) (p : UserPreferences)
    (h : BoundedPrefs p) : BoundedPrefs (calls.foldl (applyCall now) p) := by
  induction calls generalizing p with
  | nil => exact h
  | cons c cs ih => exact ih _ (boundedPrefs_step now p c h)

/-- Claim C4 (amended): the unit-band invariant on cuisine affinities holds
for every starting profile whose stored values already lie in the band (in
particular for the default profile); the one-sided clamps of add_feedback
preserve the band but do not restore it from an unbounded initial load. -/
theorem cuisine_preferences_stay_bounded (now : ℤ) (p0 : UserPreferences)
    (calls : List FeedbackCall) (k : String) (v : ℚ)
    (h0 : ∀ kv ∈ p0.cuisine_preferences, -1 ≤ kv.2 ∧ kv.2 ≤ 1)
    (hmem : (k, v) ∈ (calls.foldl (applyCall now) p0).cuisine_preferences) :
    -1 ≤ v ∧ v ≤ 1 :=
  boundedPrefs_foldl now calls p0 h0 (k, v) hmem

/-- Concrete instantiation of the amended C4 theorem after one positive call
from the default profile. -/
theorem cuisine_preferences_stay_bounded_witness :
    (-1 : ℚ) ≤ 1 / 10 ∧ (1 / 10 : ℚ) ≤ 1 := by
  apply cuisine_preferences_stay_bounded 0 (default_preferences 0) [karahi_call] "Desi"
  · intro kv hkv
    simp only [default_preferences, List.mem_cons] at hkv
    rcases hkv with h | h | h | h <;> first
      | (rw [h]; norm_num)
      | simp at h
  · norm_num [applyCall, add_feedback, default_preferences, karahi_call, max_history,
      cuisine_boost_rate, alookup, asetOrAppend, add_mood_pattern, min_def, max_def]

/-- Claim C4 (counterexample): from a starting profile whose Desi affinity is
five, a single negative recordFeedback leaves the affinity at ninety-nine
twentieths, strictly above one, so the values do not lie in the unit band
for every starting profile. -/
theorem cuisine_preferences_escape_unit_band :
    alookup (applyCall 0 prefs_unbounded negative_desi_call).cuisine_preferences "Desi"
        = some (99 / 20)
  ∧ (1 : ℚ) < 99 / 20 := by
  constructor
  · norm_num [applyCall, add_feedback, prefs_unbounded, negative_desi_call, max_history,
      cuisine_boost_rate, alookup, asetOrAppend, add_mood_pattern, min_def, max_def]
  · norm_num

theorem keys_asetOrAppend_of_isSome {β : Type} {d : List (String × β)} {k : String}
    {v : β} (h : (alookup d k).isSome) :
    (asetOrAppend d k v).map Prod.fst = d.map Prod.fst := by
  unfold asetOrAppend
  rw [if_pos h, List.map_map]
  apply List.map_congr_left
  intro q _
  by_cases hk : q.1 = k
  · simp [hk]
  · simp [hk]

theorem add_feedback_keys (now : ℤ) (t : String) (rating : ℤ) (tags : List String)
    (cu mt : String) (ct : ℚ) (p : UserPreferences) :
    (add_feedback now t rating tags cu mt ct p).cuisine_preferences.map Prod.fst
      = p.cuisine_preferences.map Prod.fst := by
  rw [add_feedback_cp_eq]
  split_ifs <;>
    [skip; skip; rfl] <;>
    (cases halk : alookup p.cuisine_preferences cu with
      | none => rfl
      | some current => exact keys_asetOrAppend_of_isSome (by rw [halk]; rfl))

theorem alookup_eq_none_of_not_mem_keys {β : Type} {d : List (String × β)} {k : String}
    (h : k ∉ d.map Prod.fst) : alookup d k = none := by
  induction d with
  | nil => rfl
  | cons q ps ih =>
    simp only [List.map_cons, List.mem_cons] at h
    push_neg at h
    rw [alookup, if_neg (fun hc => h.1 hc.symm)]
    exact ih h.2

theorem add_feedback_cp_of_alookup_none (now : ℤ) (t : String) (rating : ℤ)
    (tags : List String) (cu mt : String) (ct : ℚ) (p : UserPreferences)
    (halk : alookup p.cuisine_preferences cu = none) :
    (add_feedback now t rating tags cu mt ct p).cuisine_preferences
      = p.cuisine_preferences := by
  rw [add_feedback_cp_eq]
  split_ifs <;> simp only [halk]

theorem run_keys (now : ℤ) (calls : List FeedbackCall) :
    (runFeedback now calls).cuisine_preferences.map Prod.fst
      = ["Desi", "Arabic", "Western"] := by
  unfold runFeedback
  have haux : ∀ (cs : List FeedbackCall) (p : UserPreferences),
      (cs.foldl (applyCall now) p).cuisine_preferences.map Prod.fst
        = p.cuisine_preferences.map Prod.fst := by
    intro cs
    induction cs with
    | nil => intro p; rfl
    | cons c cs2 ih =>
      intro p
      rw [List.foldl_cons, ih]
      exact add_feedback_keys now c.recipe_title c.rating c.mood_tags c.cuisine
        c.meal_time c.cook_time p
  rw [haux]
  rfl

/-- Claim C9: every profile reachable from the default keeps exactly the
three preset cuisine keys, and a recordFeedback call whose recipe cuisine is
not one of them leaves the cuisine_preferences mapping entirely unchanged,
regardless of the rating. -/
theorem unknown_cuisine_preserves_preferences (now : ℤ) (calls : List FeedbackCall)
    (c : FeedbackCall) (h : c.cuisine ∉ (["Desi", "Arabic", "Western"] : List String)) :
    (runFeedback now calls).cuisine_preferences.map Prod.fst
        = ["Desi", "Arabic", "Western"]
  ∧ (applyCall now (runFeedback now calls) c).cuisine_preferences
        = (runFeedback now calls).cuisine_preferences := by
  have hkeys := run_keys now calls
  refine ⟨hkeys, ?_⟩
  have hnone : alookup (runFeedback now calls).cuisine_preferences c.cuisine = none := by
    apply alookup_eq_none_of_not_mem_keys
    rw [hkeys]
    exact h
  exact add_feedback_cp_of_alookup_none now c.recipe_title c.rating c.mood_tags
    c.cuisine c.meal_time c.cook_time _ hnone

/-- Concrete instantiation of the C9 theorem: a five-star rating on a recipe
of the unknown cuisine leaves the default mapping untouched. -/
theorem unknown_cuisine_preserves_preferences_witness :
    (applyCall 0 (runFeedback 0 []) unknown_cuisine_call).cuisine_preferences
      = (runFeedback 0 []).cuisine_preferences :=
  (unknown_cuisine_preserves_preferences 0 [] unknown_cuisine_call (by decide)).2

theorem alookup_map_set_ne {β : Type} (d : List (String × β)) (k : String) (v : β)
    (k2 : String) (hne : k2 ≠ k) :
    alookup (d.map fun q => if q.1 = k then (k, v) else q) k2 = alookup d k2 := by
  induction d with
  | nil => rfl
  | cons q ps ih =>
    by_cases hq : q.1 = k
    · simp only [List.map_cons, if_pos hq, alookup]
      rw [if_neg (fun hc => hne hc.symm), if_neg (fun hc => hne (hq ▸ hc).symm)]
      exact ih
    · simp only [List.map_cons, if_neg hq, alookup]
      split
      · rfl
      · exact ih

theorem alookup_map_set_eq {β : Type} (d : List (String × β)) (k : String) (v : β)
    (hp : (alookup d k).isSome) :
    alookup (d.map fun q => if q.1 = k then (k, v) else q) k = some v := by
  induction d with
  | nil => simp [alookup] at hp
  | cons q ps ih =>
    by_cases hq : q.1 = k
    · simp [List.map_cons, if_pos hq, alookup]
    · simp only [List.map_cons, if_neg hq, alookup, if_neg hq]
      rw [alookup, if_neg hq] at hp
      exact ih hp

theorem alookup_append {β : Type} (d e : List (String × β)) (k : String) :
    alookup (d ++ e) k =
      (match alookup d k with
       | some v => some v
       | none => alookup e k) := by
  induction d with
  | nil => rfl
  | cons q ps ih =>
    by_cases hq : q.1 = k
    · simp only [List.cons_append, alookup, if_pos hq]
    · simp only [List.cons_append, alookup, if_neg hq]
      exact ih

theorem alookup_asetOrAppend {β : Type} (d : List (String × β)) (k : String) (v : β)
    (k2 : String) :
    alookup (asetOrAppend d k v) k2 = if k2 = k then some v else alookup d k2 := by
  unfold asetOrAppend
  split
  · by_cases hk2 : k2 = k
    · subst hk2
      rw [if_pos rfl]
      exact alookup_map_set_eq d k2 v (by assumption)
    · rw [if_neg hk2]
      exact alookup_map_set_ne d k v k2 hk2
  · rw [alookup_append]
    by_cases hk2 : k2 = k
    · subst hk2
      rename_i hns
      have : alookup d k2 = none := by
        cases halk : alookup d k2
        · rfl
        · rw [halk] at hns
          simp at hns
      rw [this, if_pos rfl]
      simp [alookup]
    · rw [if_neg hk2]
      cases halk : alookup d k2
      · simp only []
        rw [alookup, if_neg (fun hc => hk2 hc.symm)]
        rfl
      · rfl

theorem countCuisine_append {α : Type} (f : α → String) (l1 l2 : List α) (cu : String) :
    countCuisine f (l1 ++ l2) cu = countCuisine f l1 cu + countCuisine f l2 cu := by
  simp [countCuisine, List.filter_append]

theorem countCuisine_singleton {α : Type} (f : α → String) (r : α) (cu : String) :
    countCuisine f [r] cu = if f r = cu then 1 else 0 := by
  by_cases h : f r = cu
  · simp [countCuisine, List.filter, decide_eq_true h, h]
  · simp [countCuisine, List.filter, decide_eq_false h, h]

theorem countCuisine_nil {α : Type} (f : α → String) (cu : String) :
    countCuisine f [] cu = 0 := rfl

theorem diversity_loop_sublist {α : Type} (f : α → String) (m : Nat) (l : List α)
    (counts : List (String × Nat)) (acc : List α) :
    ∃ s, diversity_loop f m l counts acc = acc ++ s ∧ s.Sublist l := by
  induction l generalizing counts acc with
  | nil => exact ⟨[], by simp [diversity_loop], List.nil_sublist _⟩
  | cons r rs ih =>
    simp only [diversity_loop]
    by_cases hadm : (alookup counts (f r)).getD 0 < m
    · simp only [if_pos hadm]
      by_cases hstop : 3 ≤ (acc ++ [r]).length
      · rw [if_pos hstop]
        exact ⟨[r], rfl, (List.nil_sublist rs).cons₂ r⟩
      · rw [if_neg hstop]
        obtain ⟨s, hs, hsub⟩ := ih (asetOrAppend counts (f r) ((alookup counts (f r)).getD 0 + 1)) (acc ++ [r])
        exact ⟨r :: s, by rw [hs]; simp, hsub.cons₂ r⟩
    · simp only [if_neg hadm]
      by_cases hstop : 3 ≤ acc.length
      · rw [if_pos hstop]
        exact ⟨[], by simp, List.nil_sublist _⟩
      · rw [if_neg hstop]
        obtain ⟨s, hs, hsub⟩ := ih counts acc
        exact ⟨s, hs, hsub.cons r⟩

theorem diversity_loop_length {α : Type} (f : α → String) (m : Nat) (l : List α)
    (counts : List (String × Nat)) (acc : List α) (h : acc.length < 3) :
    (diversity_loop f m l counts acc).length ≤ 3 := by
  induction l generalizing counts acc with
  | nil => exact le_of_lt h
  | cons r rs ih =>
    simp only [diversity_loop]
    by_cases hadm : (alookup counts (f r)).getD 0 < m
    · simp only [if_pos hadm]
      have hlen : (acc ++ [r]).length ≤ 3 := by
        simp only [List.length_append, List.length_singleton]
        omega
      by_cases hstop : 3 ≤ (acc ++ [r]).length
      · rw [if_pos hstop]
        exact hlen
      · rw [if_neg hstop]
        exact ih _ _ (lt_of_not_le hstop)
    · simp only [if_neg hadm]
      by_cases hstop : 3 ≤ acc.length
      · rw [if_pos hstop]
        omega
      · rw [if_neg hstop]
        exact ih _ _ h

theorem diversity_loop_count {α : Type} (f : α → String) (m : Nat) (l : List α)
    (counts : List (String × Nat)) (acc : List α)
    (hinv : ∀ cu, countCuisine f acc cu = (alookup counts cu).getD 0)
    (hbd : ∀ cu, countCuisine f acc cu ≤ m) (cu : String) :
    countCuisine f (diversity_loop f m l counts acc) cu ≤ m := by
  induction l generalizing counts acc with
  | nil => exact hbd cu
  | cons r rs ih =>
    simp only [diversity_loop]
    by_cases hadm : (alookup counts (f r)).getD 0 < m
    · simp only [if_pos hadm]
      have hstep : ∀ cu2, countCuisine f (acc ++ [r]) cu2 ≤ m := by
        intro cu2
        rw [countCuisine_append, countCuisine_singleton]
        by_cases hcu : f r = cu2
        · rw [if_pos hcu, hinv cu2, ← hcu]
          omega
        · rw [if_neg hcu]
          have := hbd cu2
          omega
      by_cases hstop : 3 ≤ (acc ++ [r]).length
      · rw [if_pos hstop]
        exact hstep cu
      · rw [if_neg hstop]
        apply ih
        · intro cu2
          rw [countCuisine_append, countCuisine_singleton, alookup_asetOrAppend]
          by_cases hcu : cu2 = f r
          · rw [if_pos hcu, if_pos (by rw [hcu]), hcu, hinv (f r)]
            simp
          · rw [if_neg hcu, if_neg (fun hc => hcu hc.symm), hinv cu2]
            simp
        · exact hstep
    · simp only [if_neg hadm]
      by_cases hstop : 3 ≤ acc.length
      · rw [if_pos hstop]
        exact hbd cu
      · rw [if_neg hstop]
        exact ih counts acc hinv hbd

/-- Claim C6: apply_diversity_filter preserves the relative order of admitted
rows (the output is a sublist of the input), never admits a cuisine beyond
the per-cuisine cap, returns the input unchanged whenever the input length
is at most the cap, and otherwise returns at most three rows. -/
theorem apply_diversity_filter_spec {α : Type} (cuisineOf : α → String)
    (recs : List α) (max_same : Nat) :
    List.Sublist (apply_diversity_filter cuisineOf recs max_same) recs
  ∧ (∀ cu, countCuisine cuisineOf (apply_diversity_filter cuisineOf recs max_same) cu
        ≤ max_same)
  ∧ (recs.length ≤ max_same → apply_diversity_filter cuisineOf recs max_same = recs)
  ∧ (max_same < recs.length →
      (apply_diversity_filter cuisineOf recs max_same).length ≤ 3) := by
  unfold apply_diversity_filter
  by_cases hlen : recs.length ≤ max_same
  · rw [if_pos hlen]
    refine ⟨List.Sublist.refl _, ?_, fun _ => rfl, fun hlt => absurd hlen (not_le.2 hlt)⟩
    intro cu
    calc countCuisine cuisineOf recs cu ≤ recs.length := List.length_filter_le _ _
      _ ≤ max_same := hlen
  · rw [if_neg hlen]
    refine ⟨?_, ?_, fun hc => absurd hc hlen, fun _ => ?_⟩
    · obtain ⟨s, hs, hsub⟩ := diversity_loop_sublist cuisineOf max_same recs [] []
      rw [hs]
      simpa using hsub
    · intro cu
      apply diversity_loop_count
      · intro cu2
        simp [countCuisine_nil, alookup]
      · intro cu2
        simp [countCuisine_nil]
    · exact diversity_loop_length cuisineOf max_same recs [] [] (by simp)

/-- Concrete instantiation of the C6 theorem: a two-row input with a cap of
two is returned unchanged. -/
theorem apply_diversity_filter_spec_witness :
    apply_diversity_filter (fun r : Recipe => r.cuisine) [recipeA, recipeB] 2
      = [recipeA, recipeB] :=
  (apply_diversity_filter_spec (fun r : Recipe => r.cuisine) [recipeA, recipeB] 2).2.2.1
    (by decide)

/-- Claim C7: from the default profile, after a five-star feedback on Chicken
Karahi (Desi, Dinner, thirty minutes, comfort tag), the personalized boost
for that recipe row is exactly sixty-three hundredths, which lies between
one half and one. -/
theorem personalized_boost_scenario :
    get_personalized_boost 0 (applyCall 0 (default_preferences 0) karahi_call) recipeA
        = 63 / 100
  ∧ (1 / 2 : ℚ) ≤ 63 / 100 ∧ (63 / 100 : ℚ) ≤ 1 := by
  refine ⟨?_, by norm_num, by norm_num⟩
  norm_num [applyCall, add_feedback, default_preferences, karahi_call, max_history,
    cuisine_boost_rate, alookup, asetOrAppend, add_mood_pattern, get_personalized_boost,
    get_recent_feedback, recipeA, List.filter, min_def, max_def]

theorem map_mul_right_eq_scale (w : ℚ) (l : List ℚ) :
    l.map (fun x => x * w) = scale w l := by
  unfold scale
  induction l with
  | nil => rfl
  | cons x xs ih => simp [ih, mul_comm]

theorem cuisineVector_length (c : String) : (cuisineVector c).length = 3 := by
  unfold cuisineVector cuisine_weights
  simp only [alookup]
  split_ifs <;> rfl

theorem timeVector_length (m : String) : (timeVector m).length = 3 := by
  unfold timeVector time_weights
  simp only [alookup]
  split_ifs <;> rfl

/-- Claim C8: the enhanced embedding is exactly the concatenation prescribed
by the specification (seven tenths of the text embedding, one fifth of the
cuisine vector, one tenth of the time vector, and the single component one
tenth of the capped normalized cook time), unknown cuisine or meal-time
keys fall back to the neutral vector, and the output always has the text
dimension plus seven components, so the composition is total. -/
theorem enhanced_embedding_matches_spec (embed : String → List ℚ)
    (d c m : String) (t : ℚ) :
    get_enhanced_embedding embed d c m t = enhancedEmbed_spec embed d c m t
  ∧ (alookup cuisine_weights c = none → cuisineVector c = [1 / 2, 1 / 2, 1 / 2])
  ∧ (alookup time_weights m = none → timeVector m = [1 / 2, 1 / 2, 1 / 2])
  ∧ (get_enhanced_embedding embed d c m t).length = (embed d).length + 3 + 3 + 1 := by
  refine ⟨?_, ?_, ?_, ?_⟩
  · simp only [get_enhanced_embedding, enhancedEmbed_spec, cuisineVector, timeVector]
    rw [map_mul_right_eq_scale, map_mul_right_eq_scale, map_mul_right_eq_scale,
      mul_comm]
  · intro h
    simp [cuisineVector, h]
  · intro h
    simp [timeVector, h]
  · unfold get_enhanced_embedding
    simp only [List.append_assoc, List.length_append, List.length_map,
      List.length_singleton]
    have h1 := cuisineVector_length c
    have h2 := timeVector_length m
    unfold cuisineVector at h1
    unfold timeVector at h2
    rw [h1, h2]

/-- Concrete instantiation of the C8 theorem: unknown cuisine and meal-time
keys degrade to the neutral vector. -/
theorem enhanced_embedding_matches_spec_witness :
    cuisineVector "Unknown" = [1 / 2, 1 / 2, 1 / 2]
  ∧ timeVector "Brunch" = [1 / 2, 1 / 2, 1 / 2] :=
  ⟨(enhanced_embedding_matches_spec (fun _ => []) "x" "Unknown" "Brunch" 7).2.1
      (by simp [alookup, cuisine_weights]),
   (enhanced_embedding_matches_spec (fun _ => []) "x" "Unknown" "Brunch" 7).2.2.1
      (by simp [alookup, time_weights])⟩

/-- Claim C1 (code-bug exhibit): with learning enabled, the ranking step of
app.py still orders the rows by similarity alone, because the frame reaching
it never carries a cuisine_boost column - the line
final_filtered = filtered_df skips filter_with_preferences, the one function
that would create the column (third conjunct).  On two rows whose claimed
final scores would order them the other way, the code output disagrees with
the ordering the claim prescribes. -/
theorem ranking_ignores_stored_cuisine_preferences :
    rank_and_select true false [rowA, rowB] = [rowB, rowA]
  ∧ sortDescBy (spec_final_score prefs_c1) [rowA, rowB] = [rowA, rowB]
  ∧ (filter_with_preferences [recipeA, recipeB] "Any" "Dinner" 60
      (some prefs_c1)).hasCuisineBoostCol = true := by
  refine ⟨?_, ?_, rfl⟩
  · norm_num [rank_and_select, sortDescBy, insertDesc, rowA, rowB, apply_diversity_filter,
      recipeA, recipeB]
  · norm_num +decide [sortDescBy, insertDesc, spec_final_score, prefs_c1, rowA, rowB,
      alookup, recipeA, recipeB]

/-- Claim C2 (code-bug exhibit): with a non-empty mood text and an empty
candidate set after filtering, the recommendation block raises instead of
returning the empty no-results outcome, in both embedding modes: the
enhanced path indexes the first recipe embedding of an empty list
(IndexError in the source), and the plain path hands sklearn an empty sample
list (ValueError). -/
theorem empty_candidate_set_raises :
    recommend_block (fun _ => [1]) (fun _ _ => 0) true true "I am stressed" []
        = Except.error "IndexError: list index out of range"
  ∧ recommend_block (fun _ => [1]) (fun _ _ => 0) false true "I am stressed" []
        = Except.error "ValueError: found array with 0 samples" :=
  ⟨rfl, rfl⟩
